import Mathlib

/-!
Verification of the go-angular-boilerplate backend (Go) against its
natural-language specification.  The Go code is shallowly embedded: pure
helpers become Lean functions, the stateful pieces (per-client rate-limiter
map, JWKS key cache, Mongo-backed stores) become explicit state passing over
executable data, Go `error` returns become `Option`/`Except`, machine
integers become `Int`/`Nat` (with an explicit `% 2 ^ 64` where Go `int`
arithmetic could wrap), and wall-clock instants become exact rationals or
integers.  Each definition is annotated with the Go source it embeds.
-/

namespace Boilerplate

/-! ## Generic string-keyed association maps

Go `map[string]V` values are embedded as association lists.  `mapInsert`
overwrites the entry for an existing key (Go map assignment semantics) and
appends otherwise; `mapLookup` is Go map indexing with `ok` encoded as
`Option`. -/

def mapLookup {α : Type} : List (String × α) → String → Option α
  | [], _ => none
  | (k, v) :: rest, key => if key = k then some v else mapLookup rest key

def mapInsert {α : Type} : List (String × α) → String → α → List (String × α)
  | [], key, v => [(key, v)]
  | (k, w) :: rest, key, v =>
      if k = key then (k, v) :: rest else (k, w) :: mapInsert rest key v

/-- Helper: `optOr a b` is `a` when `a` is `some`, otherwise `b`. -/
def optOr {α : Type} : Option α → Option α → Option α
  | some x, _ => some x
  | none, b => b

theorem mapLookup_mapInsert {α : Type} (m : List (String × α)) (k : String)
    (v : α) (key : String) :
    mapLookup (mapInsert m k v) key = if key = k then some v else mapLookup m key := by
  induction m with
  | nil => simp [mapInsert, mapLookup]
  | cons p rest ih =>
      obtain ⟨k', w⟩ := p
      by_cases hk : k' = k
      · subst hk
        by_cases hkey : key = k' <;> simp [mapInsert, mapLookup, hkey]
      · by_cases hkey : key = k'
        · subst hkey
          have hk' : ¬ k = key := fun h => hk h.symm
          simp [mapInsert, mapLookup, hk, hk']
        · simp [mapInsert, mapLookup, hk, hkey, ih]

/-! ## Task status (`backend/internal/entities/task.go`)

Go declares `type TaskStatus int` with `iota` constants; we embed the type
as `Int` with the same constant values. -/

def TaskStatusTodo : Int := 0

def TaskStatusInProgress : Int := 1

def TaskStatusDone : Int := 2

/-- Go `TaskStatus.String` from `entities/task.go`. -/
def taskStatusString (s : Int) : String :=
  if s = TaskStatusTodo then "TODO"
  else if s = TaskStatusInProgress then "IN_PROGRESS"
  else if s = TaskStatusDone then "DONE"
  else "UNKNOWN"

/-- Go `TaskStatus.MarshalJSON`: `fmt.Sprintf` of the `String()` form wrapped in
double quotes.  It never fails, so the Go `error` component is dropped. -/
def taskStatusMarshalJSON (s : Int) : String :=
  "\"" ++ taskStatusString s ++ "\""

/-- The quote-stripping prelude of `TaskStatus.UnmarshalJSON`: when the raw
data has length at least 2 and starts and ends with `"`, both quotes are
removed. -/
def stripQuotes (data : String) : String :=
  if 2 ≤ data.length ∧ data.front = '"' ∧ data.back = '"' then
    (data.drop 1).dropRight 1
  else data

/-- Go `TaskStatus.UnmarshalJSON` (minus the receiver mutation): `some s` means
the receiver was set to `s` and `nil` was returned, `none` means the
`invalid task status` error was returned. -/
def taskStatusUnmarshalJSON (data : String) : Option Int :=
  let str := stripQuotes data
  if str = "TODO" then some TaskStatusTodo
  else if str = "IN_PROGRESS" then some TaskStatusInProgress
  else if str = "DONE" then some TaskStatusDone
  else none

/-- Go `ParseTaskStatus` from `entities/task.go`.  Go returns a
`(TaskStatus, error)` pair; the second component is `some msg` exactly when
the returned error is non-nil. -/
def ParseTaskStatus (s : String) : Int × Option String :=
  if s = "TODO" then (TaskStatusTodo, none)
  else if s = "IN_PROGRESS" then (TaskStatusInProgress, none)
  else if s = "DONE" then (TaskStatusDone, none)
  else (TaskStatusTodo, some ("invalid task status: " ++ s))

/-! ## Entities and HTTP responses

`entities.Task` (`backend/internal/entities/task.go`): timestamps
(`time.Time`) are embedded as integers, the optional `*time.Time` due date
as `Option Int`, and the status as the `Int` embedding above. -/

structure Task where
  id : String
  projectID : String
  title : String
  status : Int
  dueDate : Option Int
  description : String
  createdAt : Int
  updatedAt : Int
  deriving DecidableEq, Repr

/-- Bodies written by the handlers: empty (`204`), plain text
(`http.Error`), the `respondError` JSON object, or a JSON-encoded task. -/
inductive Body where
  | empty
  | text (s : String)
  | errorJson (msg : String)
  | taskJson (t : Task)
  deriving DecidableEq, Repr

/-- An HTTP response as observed by the client: status code, headers set on
the writer, and the body. -/
structure Response where
  status : Nat
  headers : List (String × String)
  body : Body
  deriving DecidableEq, Repr

/-- Go `respondJSON` for error bodies, i.e. `respondError` from
`response_helpers`: JSON content type, the given status, and an
`ErrorResponse{Error: message}` body. -/
def respondError (msg : String) (status : Nat) : Response :=
  { status := status
    headers := [("Content-Type", "application/json")]
    body := Body.errorJson msg }

/-- Go `respondJSON` on a task value. -/
def respondTask (t : Task) (status : Nat) : Response :=
  { status := status
    headers := [("Content-Type", "application/json")]
    body := Body.taskJson t }

/-! ## MongoDB object ids

`primitive.ObjectIDFromHex` succeeds exactly on 24-character hexadecimal
strings. -/

def isHexChar (c : Char) : Bool :=
  ('0' ≤ c ∧ c ≤ '9') ∨ ('a' ≤ c ∧ c ≤ 'f') ∨ ('A' ≤ c ∧ c ≤ 'F')

def validObjectIDHex (s : String) : Bool :=
  s.length = 24 && s.toList.all isHexChar

/-! ## Project deletion
(`storage/mongodb/project_repository.go`, `transport/http/project_handler.go`)

The Mongo collection is embedded as the list of stored project ids (hex
strings, pairwise distinct in a real collection); `DeleteOne` with an `_id`
filter removes the matching document and reports `DeletedCount`. -/

/-- Go `mongoDbProjectRepository.Delete`: convert the id from hex (error on bad
hex), `DeleteOne` by `_id`, and error when `DeletedCount == 0`.  Returns the
remaining store on success. -/
def projectRepoDelete (store : List String) (id : String) :
    Except String (List String) :=
  if ¬ validObjectIDHex id then Except.error "the provided hex string is not a valid ObjectID"
  else if id ∈ store then Except.ok (store.erase id)
  else Except.error "no project found with the given ID"

/-- Go `ProjectHandler.Delete`: empty path id is 400; any error from the
service (a pass-through to the repository) is 500 with a generic JSON error
body; success is an empty 204. -/
def projectHandlerDelete (store : List String) (id : String) :
    Response × List String :=
  if id = "" then (respondError "Missing project ID" 400, store)
  else
    match projectRepoDelete store id with
    | Except.error _ => (respondError "Failed to delete project" 500, store)
    | Except.ok store' =>
        ({ status := 204, headers := [], body := Body.empty }, store')

/-! ## Task update
(`transport/http/task_handler.go` `TaskHandler.Update`)

The task store is an association map from task id to stored task.  The
decoded request body (`title`/`status`/`due_date`/`description`, all
optional pointers) is taken as input; body-decode failure (400) is outside
the scope of the claims about valid bodies. -/

structure UpdateTaskRequest where
  title : Option String
  status : Option String
  dueDate : Option Int
  description : Option String
  deriving DecidableEq, Repr

/-- Go `TaskRepository.FindByID`: hex-decode the id (error on bad hex), then
`FindOne` by `_id` (error when no document matches). -/
def taskRepoFindByID (store : List (String × Task)) (id : String) :
    Except String Task :=
  if ¬ validObjectIDHex id then Except.error "the provided hex string is not a valid ObjectID"
  else
    match mapLookup store id with
    | none => Except.error "task not found"
    | some t => Except.ok t

/-- Go `TaskRepository.Update`: reject an empty id, hex-decode it (error on bad
hex), `ReplaceOne` by `_id`, and error when `MatchedCount == 0`. -/
def taskRepoUpdate (store : List (String × Task)) (t : Task) :
    Except String (List (String × Task)) :=
  if t.id = "" then Except.error "task has no ID, use Insert instead"
  else if ¬ validObjectIDHex t.id then Except.error "the provided hex string is not a valid ObjectID"
  else
    match mapLookup store t.id with
    | none => Except.error "no task found with the given ID"
    | some _ => Except.ok (mapInsert store t.id t)

/-- Go `TaskHandler.Update`: fetch the existing task, start from its fields
(`UpdatedAt` is left at the Go zero value), overwrite only the fields
present in the body (validating title non-emptiness and the status
enumeration), persist via the service, and return the constructed task with
status 200. -/
def taskHandlerUpdate (store : List (String × Task)) (id : String)
    (req : UpdateTaskRequest) : Response × List (String × Task) :=
  if id = "" then (respondError "Missing task ID" 400, store)
  else
    match taskRepoFindByID store id with
    | Except.error _ => (respondError "Task not found" 404, store)
    | Except.ok existing =>
        let task0 : Task :=
          { id := id
            projectID := existing.projectID
            title := existing.title
            status := existing.status
            dueDate := existing.dueDate
            description := existing.description
            createdAt := existing.createdAt
            updatedAt := 0 }
        match req.title with
        | some "" => (respondError "Title cannot be empty" 400, store)
        | _ =>
            let task1 := match req.title with
              | some t => { task0 with title := t }
              | none => task0
            match req.status.map ParseTaskStatus with
            | some (_, some _) =>
                (respondError "Invalid status. Must be TODO, IN_PROGRESS, or DONE" 400, store)
            | st =>
                let task2 := match st with
                  | some (s, none) => { task1 with status := s }
                  | _ => task1
                let task3 := match req.dueDate with
                  | some d => { task2 with dueDate := some d }
                  | none => task2
                let task4 := match req.description with
                  | some d => { task3 with description := d }
                  | none => task3
                match taskRepoUpdate store task4 with
                | Except.error _ =>
                    (respondError "Failed to update task" 500, store)
                | Except.ok store' => (respondTask task4 200, store')

/-! ## Requests

The request data read by the middlewares: method, the `Origin`,
`X-Forwarded-For` and `X-Real-IP` headers (`Header.Get` yields `""` when a
header is absent), and the transport-level remote address. -/

structure Request where
  method : String
  origin : String
  xff : String
  xri : String
  remoteAddr : String
  deriving DecidableEq, Repr

/-! ## CORS middleware (`transport/http/middleware.go`) -/

structure CORSConfig where
  allowedOrigins : List String
  allowedMethods : List String
  allowedHeaders : List String
  exposedHeaders : List String
  allowCredentials : Bool
  maxAge : Int
  deriving DecidableEq, Repr

/-- Go `isOriginAllowed`: exact match, the universal `"*"` entry, or a
`"*."`-led entry whose remainder (after trimming the leading `"*"`) is a
suffix of the origin. -/
def isOriginAllowed (origin : String) (allowedOrigins : List String) : Bool :=
  allowedOrigins.any fun a =>
    a == "*" || a == origin || (a.startsWith "*." && origin.endsWith (a.drop 1))

/-- The headers `CORSMiddleware` sets on the writer before dispatching,
in source order. -/
def corsHeaders (cfg : CORSConfig) (r : Request) : List (String × String) :=
  (if isOriginAllowed r.origin cfg.allowedOrigins then
      [("Access-Control-Allow-Origin", r.origin)]
    else if cfg.allowedOrigins = ["*"] then
      [("Access-Control-Allow-Origin", "*")]
    else []) ++
  (if cfg.allowedMethods ≠ [] then
      [("Access-Control-Allow-Methods", String.intercalate ", " cfg.allowedMethods)]
    else []) ++
  (if cfg.allowedHeaders ≠ [] then
      [("Access-Control-Allow-Headers", String.intercalate ", " cfg.allowedHeaders)]
    else []) ++
  (if cfg.exposedHeaders ≠ [] then
      [("Access-Control-Expose-Headers", String.intercalate ", " cfg.exposedHeaders)]
    else []) ++
  (if cfg.allowCredentials then
      [("Access-Control-Allow-Credentials", "true")]
    else []) ++
  (if 0 < cfg.maxAge then [("Access-Control-Max-Age", toString cfg.maxAge)] else [])

/-- Go `CORSMiddleware`: set the CORS headers, short-circuit `OPTIONS` requests
with an empty `204 No Content`, and forward every other request to `next`
(whose response carries the already-set headers). -/
def CORSMiddleware (cfg : CORSConfig) (next : Request → Response)
    (r : Request) : Response :=
  let hs := corsHeaders cfg r
  if r.method = "OPTIONS" then { status := 204, headers := hs, body := Body.empty }
  else
    let resp := next r
    { resp with headers := hs ++ resp.headers }

/-! ## Rate limiter (`transport/http/docs_handler.go`, rate-limiter section)

`golang.org/x/time/rate.Limiter` is embedded over exact rationals: a
limiter holds its rate (tokens per second), burst, current token count and
the last-update instant.  `Allow()` is `AllowN(now, 1)`, a pure non-waiting
admission check (`reserveN` with a zero maximum wait). -/

structure RateLimitConfig where
  requestsPerSecond : Int
  burst : Int
  deriving DecidableEq, Repr

structure Limiter where
  limit : ℚ
  burst : Int
  tokens : ℚ
  lastUpdate : ℚ
  deriving DecidableEq, Repr

/-- Go `rate.NewLimiter`: only rate and burst are set; the token count and the
last-update time start at their zero values, so the bucket fills to `burst`
on first use once `elapsed * rate` reaches `burst`. -/
def newLimiter (r : ℚ) (b : Int) : Limiter :=
  { limit := r, burst := b, tokens := 0, lastUpdate := 0 }

/-- Go `Limiter.advance`: tokens accumulated by time `t`, capped at `burst`
(a last-update instant in the future is clamped back to `t`). -/
def Limiter.advance (l : Limiter) (t : ℚ) : ℚ :=
  let last := if t < l.lastUpdate then t else l.lastUpdate
  let tokens := l.tokens + (t - last) * l.limit
  if (l.burst : ℚ) < tokens then (l.burst : ℚ) else tokens

/-- Go `Limiter.AllowN(t, 1)` (via `reserveN` with zero allowable wait): with a
zero rate, burst acts as a one-shot budget; otherwise advance the bucket,
admit when a whole token is available (`n ≤ burst` and no wait needed), and
roll the state forward only on admission.  A rate of `Inf` cannot arise
here: the source always builds the limit from the integer
`requests_per_second` configuration value. -/
def Limiter.allowAt (l : Limiter) (t : ℚ) : Bool × Limiter :=
  if l.limit = 0 then
    if 1 ≤ l.burst then (true, { l with burst := l.burst - 1 }) else (false, l)
  else
    let tokens := l.advance t
    if 1 ≤ l.burst ∧ 1 ≤ tokens then
      (true, { l with lastUpdate := t, tokens := tokens - 1 })
    else (false, l)

/-- The shared state of `RateLimiter`: the per-client map plus the
configured rate and burst. -/
structure RateLimiter where
  limiters : List (String × Limiter)
  rps : Int
  burst : Int
  deriving DecidableEq, Repr

/-- Go `NewRateLimiter`. -/
def NewRateLimiter (cfg : RateLimitConfig) : RateLimiter :=
  { limiters := [], rps := cfg.requestsPerSecond, burst := cfg.burst }

/-- Go `RateLimiter.getLimiter`: return the existing limiter for the key, or
lazily create one with the configured rate and burst (the double-checked
locking only prevents duplicate creation; sequentially it is a plain
lookup-or-insert). -/
def getLimiter (rl : RateLimiter) (ip : String) : Limiter × RateLimiter :=
  match mapLookup rl.limiters ip with
  | some l => (l, rl)
  | none =>
      let l := newLimiter (rl.rps : ℚ) rl.burst
      (l, { rl with limiters := mapInsert rl.limiters ip l })

/-- Go `getClientIP`: the verbatim `X-Forwarded-For` value when non-empty,
else the `X-Real-IP` value when non-empty, else `RemoteAddr`. -/
def getClientIP (r : Request) : String :=
  if r.xff ≠ "" then r.xff
  else if r.xri ≠ "" then r.xri
  else r.remoteAddr

/-- The `http.Error` response written on rejection: status 429, plain-text
content type, and the message with the trailing newline `http.Error`
appends. -/
def rateLimitExceededResponse : Response :=
  { status := 429
    headers := [("Content-Type", "text/plain; charset=utf-8"),
                ("X-Content-Type-Options", "nosniff")]
    body := Body.text "Rate limit exceeded. Please try again later.\n" }

/-- One pass of `RateLimiter.Middleware` on a request at instant `t`: derive
the client key, look up or create its limiter, run the non-blocking
admission check (which mutates the limiter in place, here written back into
the map), and either reject with 429 or forward to `next`. -/
def rlStep (next : Request → Response) (rl : RateLimiter) (r : Request)
    (t : ℚ) : Response × RateLimiter :=
  let ip := getClientIP r
  let lookedUp := getLimiter rl ip
  let allowed := lookedUp.1.allowAt t
  let rl2 := { lookedUp.2 with
                limiters := mapInsert lookedUp.2.limiters ip allowed.2 }
  if allowed.1 then (next r, rl2) else (rateLimitExceededResponse, rl2)

/-- Runs `n` identical requests through the middleware, collecting responses. -/
def rlRun (next : Request → Response) (rl : RateLimiter) (r : Request)
    (t : ℚ) : Nat → List Response × RateLimiter
  | 0 => ([], rl)
  | Nat.succ n =>
      let first := rlStep next rl r t
      let rest := rlRun next first.2 r t n
      (first.1 :: rest.1, rest.2)

/-- A sequence of arbitrary requests through the middleware (responses
discarded; only the resulting state matters). -/
def rlProcessSeq (next : Request → Response) (rl : RateLimiter) :
    List (Request × ℚ) → RateLimiter
  | [] => rl
  | (r, t) :: rest => rlProcessSeq next (rlStep next rl r t).2 rest

/-! ## JWT authentication middleware (`internal/auth`, in
`config/viper_config.go`'s auth document)

Token timestamps are embedded at second granularity as integers (JWT
`NumericDate` claims are numeric; `exp`/`nbf` are integers in practice and
`time.Now().Unix()` is the current whole second). -/

structure AuthConfig where
  enabled : Bool
  issuer : String
  jwksURL : String
  deriving DecidableEq, Repr

/-- The claims carried by a parsed token (`jwt.MapClaims` restricted to the
fields the middleware reads; `none` = claim absent or of the wrong type). -/
structure TokenClaims where
  iss : Option String
  exp : Option Int
  nbf : Option Int
  sub : Option String
  email : Option String
  name : Option String
  azp : Option String
  realmRoles : Option (List String)
  deriving DecidableEq, Repr

structure UserClaims where
  subject : String
  email : String
  name : String
  roles : List String
  clientID : String
  deriving DecidableEq, Repr

/-- The registered-claim validation `jwt.Parse` (golang-jwt/jwt/v5, default
parser options, zero leeway) performs after signature verification: `exp`,
when present, must be strictly after the current instant, and `nbf`, when
present, must not be after it.  Neither claim is required by default, and
issuer checking is off without a `WithIssuer` option. -/
def jwtClaimsValid (now : Int) (c : TokenClaims) : Bool :=
  (match c.exp with
   | none => true
   | some e => decide (now < e)) &&
  (match c.nbf with
   | none => true
   | some n => decide (n ≤ now))

/-- Go `Middleware.validateToken`.  The key-function stage (kid lookup with a
refresh on miss) and RSA signature verification are abstracted into `sigOk`:
`sigOk = false` covers every `jwt.Parse` failure other than registered-claim
validation (malformed token, unknown algorithm, missing or unresolvable kid,
signature mismatch).  After a successful parse the source re-checks the
issuer against the configuration (when one is configured), requires a
numeric `exp` claim that is not strictly in the past, and extracts the user
claims with `""`/empty defaults. -/
def validateToken (cfg : AuthConfig) (sigOk : Bool) (now : Int)
    (c : TokenClaims) : Except String UserClaims :=
  if ¬ sigOk then Except.error "token is unverifiable"
  else if ¬ jwtClaimsValid now c then Except.error "token has invalid claims"
  else if cfg.issuer ≠ "" ∧ c.iss ≠ some cfg.issuer then
    Except.error "invalid issuer"
  else
    match c.exp with
    | none => Except.error "missing exp claim"
    | some e =>
        if now > e then Except.error "token expired"
        else
          Except.ok
            { subject := c.sub.getD ""
              email := c.email.getD ""
              name := c.name.getD ""
              roles := c.realmRoles.getD []
              clientID := c.azp.getD "" }

/-- The `http.Error` 401 response written by `Authenticate` on any
validation failure. -/
def unauthorizedResponse : Response :=
  { status := 401
    headers := [("Content-Type", "text/plain; charset=utf-8"),
                ("X-Content-Type-Options", "nosniff")]
    body := Body.text "Unauthorized\n" }

/-- The tail of `Middleware.Authenticate` once a bearer token has been
extracted from the `Authorization` header: skip validation entirely when
auth is disabled, otherwise 401 on any `validateToken` error and forward
with the claims in context on success. -/
def authenticate (cfg : AuthConfig) (sigOk : Bool) (now : Int)
    (c : TokenClaims) (next : Option UserClaims → Response) : Response :=
  if ¬ cfg.enabled then next none
  else
    match validateToken cfg sigOk now c with
    | Except.error _ => unauthorizedResponse
    | Except.ok u => next (some u)

/-! ## JWKS cache (`internal/auth`, same document)

`base64.RawURLEncoding.DecodeString` and `parseRSAPublicKey` are embedded
bit-exactly; the cache is a string-keyed map of parsed RSA public keys. -/

/-- The value of one character of the unpadded URL-safe base64 alphabet. -/
def b64Val (c : Char) : Option Nat :=
  if 'A' ≤ c ∧ c ≤ 'Z' then some (c.toNat - 65)
  else if 'a' ≤ c ∧ c ≤ 'z' then some (c.toNat - 97 + 26)
  else if '0' ≤ c ∧ c ≤ '9' then some (c.toNat - 48 + 52)
  else if c = '-' then some 62
  else if c = '_' then some 63
  else none

/-- Unpadded base64url decoding by 4-character groups: a trailing group of
one character is corrupt, two characters yield one byte and three yield two
(Go's default decoder ignores unused trailing bits). -/
def b64Chunks : List Char → Option (List Nat)
  | [] => some []
  | [_] => none
  | [c1, c2] => do
      let v1 ← b64Val c1
      let v2 ← b64Val c2
      pure [v1 * 4 + v2 / 16]
  | [c1, c2, c3] => do
      let v1 ← b64Val c1
      let v2 ← b64Val c2
      let v3 ← b64Val c3
      pure [v1 * 4 + v2 / 16, v2 % 16 * 16 + v3 / 4]
  | c1 :: c2 :: c3 :: c4 :: rest => do
      let v1 ← b64Val c1
      let v2 ← b64Val c2
      let v3 ← b64Val c3
      let v4 ← b64Val c4
      let tail ← b64Chunks rest
      pure ([v1 * 4 + v2 / 16, v2 % 16 * 16 + v3 / 4, v3 % 4 * 64 + v4] ++ tail)

/-- Go `base64.RawURLEncoding.DecodeString`, as a list of byte values. -/
def base64RawURLDecode (s : String) : Option (List Nat) :=
  b64Chunks s.toList

/-- An `rsa.PublicKey`: big-endian modulus and `int` exponent (Go `int`
arithmetic is 64-bit and wraps, hence the explicit modulus; the exponent is
stored as its unsigned 64-bit pattern). -/
structure RSAPublicKey where
  n : Nat
  e : Nat
  deriving DecidableEq, Repr

/-- Go `parseRSAPublicKey`: base64url-decode both fields (the only failure
points), read the modulus big-endian, and fold the exponent bytes with
`e = e<<8 + int(b)`. -/
def parseRSAPublicKey (nStr eStr : String) : Option RSAPublicKey := do
  let nBytes ← base64RawURLDecode nStr
  let eBytes ← base64RawURLDecode eStr
  pure { n := nBytes.foldl (fun a b => a * 256 + b) 0
         e := eBytes.foldl (fun a b => (a * 256 + b) % 2 ^ 64) 0 }

/-- One JWK entry of the fetched key-set document. -/
structure JWKSKey where
  kid : String
  kty : String
  use : String
  n : String
  e : String
  deriving DecidableEq, Repr

/-- The cache update performed by `refreshJWKS` after a successful fetch and
decode of the key set (fetch/status/decode failures error out before
touching the cache): every RSA signing key that parses is stored into the
existing map under its kid; non-RSA, non-signing and unparsable keys are
skipped. -/
def refreshKeys (ks : List JWKSKey) (cache : List (String × RSAPublicKey)) :
    List (String × RSAPublicKey) :=
  ks.foldl
    (fun acc k =>
      if k.kty ≠ "RSA" ∨ k.use ≠ "sig" then acc
      else
        match parseRSAPublicKey k.n k.e with
        | none => acc
        | some pk => mapInsert acc k.kid pk)
    cache

/-- Go `jwksCache.getKey`. -/
def jwksGetKey (cache : List (String × RSAPublicKey)) (kid : String) :
    Except String RSAPublicKey :=
  match mapLookup cache kid with
  | none => Except.error "key not found"
  | some k => Except.ok k

/-- The kid/key pairs a refresh would store, in fetch order. -/
def parsedPairs (ks : List JWKSKey) : List (String × RSAPublicKey) :=
  ks.filterMap fun k =>
    if k.kty ≠ "RSA" ∨ k.use ≠ "sig" then none
    else (parseRSAPublicKey k.n k.e).map fun pk => (k.kid, pk)

/-- The key a refresh of `ks` would leave stored under `kid` (the last
parsed RSA signing key with that kid wins), or `none` when the fetched set
contributes nothing for `kid`. -/
def lastParsed (ks : List JWKSKey) (kid : String) : Option RSAPublicKey :=
  (parsedPairs ks).foldl (fun acc p => if p.1 = kid then some p.2 else acc) none

/-! ## Fixtures used by the witness theorems -/

def okResponse : Response :=
  { status := 200, headers := [], body := Body.empty }

def sampleNext : Request → Response := fun _ => okResponse

def altNext : Request → Response :=
  fun _ => { status := 503, headers := [], body := Body.empty }

def sampleAuthNext : Option UserClaims → Response := fun _ => okResponse

def sampleRequest : Request :=
  { method := "GET", origin := "http://localhost:4200", xff := "", xri := ""
    remoteAddr := "127.0.0.1:5555" }

def preflightRequest : Request :=
  { sampleRequest with method := "OPTIONS" }

def sampleAuthConfig : AuthConfig :=
  { enabled := true, issuer := "http://localhost:8180/realms/boilerplate", jwksURL := "" }

def xffRequestA : Request :=
  { method := "GET", origin := "", xff := "203.0.113.7, 10.0.0.1", xri := ""
    remoteAddr := "198.51.100.9:1000" }

def xffRequestB : Request :=
  { method := "GET", origin := "", xff := "203.0.113.7, 10.0.0.2", xri := ""
    remoteAddr := "198.51.100.9:1000" }

def rlSample : RateLimiter :=
  NewRateLimiter { requestsPerSecond := 5, burst := 10 }

/-- The limiter state for a client whose bucket was filled at instant `t`
and has since served `j` admitted requests with no further refill. -/
def limiterAt (rps b : Int) (t : ℚ) (j : Nat) : Limiter :=
  { limit := (rps : ℚ), burst := b, tokens := (b : ℚ) - (j : ℚ), lastUpdate := t }

/-! # Theorems -/

/-! ## C10: task status parse / print round-trip -/

theorem mapInsert_mapInsert_same {α : Type} (m : List (String × α))
    (k : String) (v w : α) :
    mapInsert (mapInsert m k v) k w = mapInsert m k w := by
  induction m with
  | nil => simp [mapInsert]
  | cons p rest ih =>
      obtain ⟨k', x⟩ := p
      by_cases hk : k' = k <;> simp [mapInsert, hk, ih]

/-- C10: for each of the three task statuses, `ParseTaskStatus` inverts
`String()` with no error and `UnmarshalJSON` inverts `MarshalJSON`; every
other input string makes `ParseTaskStatus` return an error together with
`TaskStatusTodo`; and `UnmarshalJSON` accepts exactly the three names
(after its quote-stripping prelude). -/
theorem taskStatus_roundtrip :
    (∀ s : Int,
        s = TaskStatusTodo ∨ s = TaskStatusInProgress ∨ s = TaskStatusDone →
        ParseTaskStatus (taskStatusString s) = (s, none) ∧
        taskStatusUnmarshalJSON (taskStatusMarshalJSON s) = some s) ∧
    (∀ str : String, str ≠ "TODO" → str ≠ "IN_PROGRESS" → str ≠ "DONE" →
        (ParseTaskStatus str).1 = TaskStatusTodo ∧
        (ParseTaskStatus str).2.isSome = true) ∧
    (∀ data : String,
        (taskStatusUnmarshalJSON data).isSome = true ↔
          (stripQuotes data = "TODO" ∨ stripQuotes data = "IN_PROGRESS" ∨
            stripQuotes data = "DONE")) := by
  refine ⟨?_, ?_, ?_⟩
  · rintro s (rfl | rfl | rfl) <;> exact ⟨by decide, by decide⟩
  · intro str h1 h2 h3
    simp [ParseTaskStatus, h1, h2, h3]
  · intro data
    unfold taskStatusUnmarshalJSON
    by_cases h1 : stripQuotes data = "TODO" <;>
      by_cases h2 : stripQuotes data = "IN_PROGRESS" <;>
        by_cases h3 : stripQuotes data = "DONE" <;>
          simp [h1, h2, h3]

/-- Witness for C10 at concrete inputs. -/
theorem taskStatus_roundtrip_witness :
    ParseTaskStatus (taskStatusString TaskStatusInProgress) =
      (TaskStatusInProgress, none) ∧
    (ParseTaskStatus "in_progress").1 = TaskStatusTodo ∧
    (taskStatusUnmarshalJSON "\"DONE\"").isSome = true :=
  ⟨(taskStatus_roundtrip.1 TaskStatusInProgress (Or.inr (Or.inl rfl))).1,
   (taskStatus_roundtrip.2.1 "in_progress" (by decide) (by decide) (by decide)).1,
   (taskStatus_roundtrip.2.2 "\"DONE\"").mpr (by decide)⟩

/-! ## C7: DELETE of a nonexistent project id yields 500 -/

/-- C7: for a non-empty project id not present in the store, the delete
handler answers 500 with the generic JSON error body (never 404); the
repository reports an error whenever zero documents were deleted, and the
handler maps every repository error to 500. -/
theorem projectDelete_nonexistent_500 :
    ∀ (store : List String) (id : String), id ≠ "" → id ∉ store →
      (projectHandlerDelete store id).1 =
        respondError "Failed to delete project" 500 ∧
      (projectHandlerDelete store id).1.status = 500 ∧
      (projectRepoDelete store id).isOk = false := by
  intro store id hid hmem
  have hrepo : (projectRepoDelete store id).isOk = false := by
    unfold projectRepoDelete
    by_cases hv : validObjectIDHex id = true
    · simp [hv, hmem, Except.isOk, Except.toBool]
    · simp [hv, Except.isOk, Except.toBool]
  have hout : (projectHandlerDelete store id).1 =
      respondError "Failed to delete project" 500 := by
    unfold projectHandlerDelete
    rw [if_neg hid]
    cases hdel : projectRepoDelete store id with
    | error e => rfl
    | ok st => rw [hdel] at hrepo; simp [Except.isOk, Except.toBool] at hrepo
  exact ⟨hout, by rw [hout]; rfl, hrepo⟩

/-- Witness for C7: deleting a validly-formatted but absent id from a
one-project store. -/
theorem projectDelete_nonexistent_500_witness :
    (projectHandlerDelete ["aaaaaaaaaaaaaaaaaaaaaaaa"]
        "bbbbbbbbbbbbbbbbbbbbbbbb").1.status = 500 :=
  (projectDelete_nonexistent_500 ["aaaaaaaaaaaaaaaaaaaaaaaa"]
      "bbbbbbbbbbbbbbbbbbbbbbbb" (by decide) (by decide)).2.1

/-! ## C6: CORS preflight short-circuit -/

/-- C6: every `OPTIONS` request is answered directly with an empty `204`
and the downstream handler is never invoked — the middleware's output does
not depend on `next` at all (in particular this holds when the origin
matches policy, as the spec phrases it). -/
theorem cors_preflight_shortcircuit :
    ∀ (cfg : CORSConfig) (r : Request) (next nextAlt : Request → Response),
      r.method = "OPTIONS" →
      CORSMiddleware cfg next r = CORSMiddleware cfg nextAlt r ∧
      (CORSMiddleware cfg next r).status = 204 ∧
      (CORSMiddleware cfg next r).body = Body.empty := by
  intro cfg r next nextAlt hm
  refine ⟨?_, ?_, ?_⟩ <;> simp [CORSMiddleware, hm]

/-- Witness for C6: a concrete preflight request (with an allowed origin)
against two different downstream handlers. -/
theorem cors_preflight_shortcircuit_witness :
    CORSMiddleware
        { allowedOrigins := ["http://localhost:4200"], allowedMethods := []
          allowedHeaders := [], exposedHeaders := [], allowCredentials := false
          maxAge := 0 } sampleNext preflightRequest =
      CORSMiddleware
        { allowedOrigins := ["http://localhost:4200"], allowedMethods := []
          allowedHeaders := [], exposedHeaders := [], allowCredentials := false
          maxAge := 0 } altNext preflightRequest ∧
    (CORSMiddleware
        { allowedOrigins := ["http://localhost:4200"], allowedMethods := []
          allowedHeaders := [], exposedHeaders := [], allowCredentials := false
          maxAge := 0 } sampleNext preflightRequest).status = 204 :=
  ⟨(cors_preflight_shortcircuit _ preflightRequest sampleNext altNext rfl).1,
   (cors_preflight_shortcircuit _ preflightRequest sampleNext altNext rfl).2.1⟩

/-! ## C3: expired tokens are rejected -/

/-- C3: a token whose `exp` claim is at or before the current instant never
validates, even with a valid signature and a matching issuer, and the
middleware answers 401; the boundary case `exp = now` is included (the
claim validation `jwt.Parse` runs requires `now < exp` strictly). -/
theorem expiredToken_rejected :
    ∀ (cfg : AuthConfig) (now e : Int) (c : TokenClaims)
      (next : Option UserClaims → Response),
      c.exp = some e → e ≤ now → c.iss = some cfg.issuer →
      (∃ msg, validateToken cfg true now c = Except.error msg) ∧
      (cfg.enabled = true → authenticate cfg true now c next = unauthorizedResponse) ∧
      unauthorizedResponse.status = 401 := by
  intro cfg now e c next hexp hle _hiss
  have hvalid : jwtClaimsValid now c = false := by
    unfold jwtClaimsValid
    rw [hexp]
    have : ¬ now < e := not_lt.mpr hle
    simp [this]
  have hval : validateToken cfg true now c = Except.error "token has invalid claims" := by
    unfold validateToken
    simp [hvalid]
  refine ⟨⟨_, hval⟩, ?_, rfl⟩
  intro hen
  unfold authenticate
  simp [hen, hval]

/-- Witness for C3 at the exact-equality boundary: `exp = now = 1700000000`
with a valid signature and a matching issuer. -/
theorem expiredToken_rejected_witness :
    authenticate sampleAuthConfig true 1700000000
      { iss := some "http://localhost:8180/realms/boilerplate"
        exp := some 1700000000, nbf := none, sub := some "user-1"
        email := none, name := none, azp := none, realmRoles := none }
      sampleAuthNext = unauthorizedResponse :=
  (expiredToken_rejected sampleAuthConfig 1700000000 1700000000
      { iss := some "http://localhost:8180/realms/boilerplate"
        exp := some 1700000000, nbf := none, sub := some "user-1"
        email := none, name := none, azp := none, realmRoles := none }
      sampleAuthNext rfl le_rfl rfl).2.1 rfl

/-! ## C5: issuer checking -/

/-- C5: with a configured (non-empty) expected issuer, any token whose
`iss` claim is absent or different never validates, signature
notwithstanding, and the middleware answers 401; with no configured issuer
the `iss` claim is never consulted (the outcome is invariant under changing
it). -/
theorem issuerMismatch_rejected :
    (∀ (cfg : AuthConfig) (now : Int) (c : TokenClaims)
        (next : Option UserClaims → Response),
        cfg.issuer ≠ "" → c.iss ≠ some cfg.issuer →
        (∃ msg, validateToken cfg true now c = Except.error msg) ∧
        (cfg.enabled = true → authenticate cfg true now c next = unauthorizedResponse)) ∧
    (∀ (cfg : AuthConfig) (sigOk : Bool) (now : Int) (c : TokenClaims)
        (x : Option String),
        cfg.issuer = "" →
        validateToken cfg sigOk now { c with iss := x } =
          validateToken cfg sigOk now c) := by
  constructor
  · intro cfg now c next hcfg hiss
    have hval : ∃ msg, validateToken cfg true now c = Except.error msg := by
      unfold validateToken
      cases hv : jwtClaimsValid now c with
      | false => exact ⟨"token has invalid claims", by simp [hv]⟩
      | true => exact ⟨"invalid issuer", by simp [hv, hcfg, hiss]⟩
    obtain ⟨msg, hval'⟩ := hval
    refine ⟨⟨msg, hval'⟩, ?_⟩
    intro hen
    unfold authenticate
    simp [hen, hval']
  · intro cfg sigOk now c x hcfg
    unfold validateToken
    simp [jwtClaimsValid, hcfg]

/-- Witness for C5: a wrong-issuer token against the sample configuration
is answered 401, and with issuer checking unconfigured the `iss` claim is
ignored. -/
theorem issuerMismatch_rejected_witness :
    authenticate sampleAuthConfig true 10
      { iss := some "http://evil.example", exp := some 99, nbf := none
        sub := none, email := none, name := none, azp := none, realmRoles := none }
      sampleAuthNext = unauthorizedResponse ∧
    validateToken { enabled := true, issuer := "", jwksURL := "" } true 10
      { iss := some "http://evil.example", exp := some 99, nbf := none
        sub := none, email := none, name := none, azp := none, realmRoles := none } =
      validateToken { enabled := true, issuer := "", jwksURL := "" } true 10
      { iss := none, exp := some 99, nbf := none
        sub := none, email := none, name := none, azp := none, realmRoles := none } :=
  ⟨(issuerMismatch_rejected.1 sampleAuthConfig 10
      { iss := some "http://evil.example", exp := some 99, nbf := none
        sub := none, email := none, name := none, azp := none, realmRoles := none }
      sampleAuthNext (by decide) (by decide)).2 rfl,
   issuerMismatch_rejected.2 { enabled := true, issuer := "", jwksURL := "" }
      true 10
      { iss := none, exp := some 99, nbf := none
        sub := none, email := none, name := none, azp := none, realmRoles := none }
      (some "http://evil.example") rfl⟩

/-! ## C8: status-only task update preserves the other fields -/

/-- C8: a PUT body containing only a valid status on an existing task is
answered 200, and the returned task carries the new status with the stored
task's project reference, title, due date, description and creation
timestamp untouched. -/
theorem taskUpdate_statusOnly_preserves :
    ∀ (store : List (String × Task)) (id : String) (existing : Task)
      (s : String) (st : Int),
      id ≠ "" →
      validObjectIDHex id = true →
      mapLookup store id = some existing →
      ParseTaskStatus s = (st, none) →
      (taskHandlerUpdate store id
          { title := none, status := some s, dueDate := none,
            description := none }).1 =
        respondTask
          { id := id, projectID := existing.projectID, title := existing.title
            status := st, dueDate := existing.dueDate
            description := existing.description, createdAt := existing.createdAt
            updatedAt := 0 } 200 := by
  intro store id existing s st hid hvalid hfind hparse
  simp [taskHandlerUpdate, taskRepoFindByID, taskRepoUpdate, hid, hvalid,
    hfind, hparse]

/-- Witness for C8: moving a stored TODO task to IN_PROGRESS with a
status-only body. -/
theorem taskUpdate_statusOnly_preserves_witness :
    (taskHandlerUpdate
        [("cccccccccccccccccccccccc",
          { id := "cccccccccccccccccccccccc", projectID := "p1"
            title := "Test Task", status := TaskStatusTodo, dueDate := none
            description := "d", createdAt := 17, updatedAt := 17 })]
        "cccccccccccccccccccccccc"
        { title := none, status := some "IN_PROGRESS", dueDate := none
          description := none }).1 =
      respondTask
        { id := "cccccccccccccccccccccccc", projectID := "p1"
          title := "Test Task", status := TaskStatusInProgress, dueDate := none
          description := "d", createdAt := 17, updatedAt := 0 } 200 :=
  taskUpdate_statusOnly_preserves _ _
    { id := "cccccccccccccccccccccccc", projectID := "p1"
      title := "Test Task", status := TaskStatusTodo, dueDate := none
      description := "d", createdAt := 17, updatedAt := 17 }
    "IN_PROGRESS" TaskStatusInProgress (by decide) (by decide) (by decide) (by decide)

/-! ## C4: JWKS refresh merges rather than replaces -/

theorem refreshKeys_cons (k : JWKSKey) (ks : List JWKSKey)
    (cache : List (String × RSAPublicKey)) :
    refreshKeys (k :: ks) cache =
      refreshKeys ks
        (if k.kty ≠ "RSA" ∨ k.use ≠ "sig" then cache
         else
           match parseRSAPublicKey k.n k.e with
           | none => cache
           | some pk => mapInsert cache k.kid pk) := rfl

theorem parsedPairs_cons (k : JWKSKey) (ks : List JWKSKey) :
    parsedPairs (k :: ks) =
      (if k.kty ≠ "RSA" ∨ k.use ≠ "sig" then []
       else
         match parseRSAPublicKey k.n k.e with
         | none => []
         | some pk => [(k.kid, pk)]) ++ parsedPairs ks := by
  unfold parsedPairs
  rw [List.filterMap_cons]
  by_cases hskip : k.kty ≠ "RSA" ∨ k.use ≠ "sig"
  · simp [hskip]
  · cases hp : parseRSAPublicKey k.n k.e <;> simp [hskip, hp]

/-- A left fold of `if hit then some _ else acc` ignores its seed exactly
when no element hits. -/
theorem foldl_override_seed {α : Type} (key : String)
    (ps : List (String × α)) (a : Option α) :
    ps.foldl (fun acc p => if p.1 = key then some p.2 else acc) a =
      optOr (ps.foldl (fun acc p => if p.1 = key then some p.2 else acc) none) a := by
  induction ps generalizing a with
  | nil => cases a <;> rfl
  | cons p ps ih =>
      simp only [List.foldl_cons]
      rw [ih, ih (if p.1 = key then some p.2 else none)]
      cases hres : ps.foldl (fun acc p => if p.1 = key then some p.2 else acc) none with
      | some v => rfl
      | none =>
          by_cases hk : p.1 = key <;> simp [hk, optOr]

theorem mapLookup_foldl_mapInsert {α : Type} (ps : List (String × α))
    (m : List (String × α)) (key : String) :
    mapLookup (ps.foldl (fun acc p => mapInsert acc p.1 p.2) m) key =
      optOr (ps.foldl (fun acc p => if p.1 = key then some p.2 else acc) none)
        (mapLookup m key) := by
  induction ps generalizing m with
  | nil => rfl
  | cons p ps ih =>
      simp only [List.foldl_cons]
      rw [ih, mapLookup_mapInsert,
        foldl_override_seed key ps (if p.1 = key then some p.2 else none)]
      cases hres : ps.foldl (fun acc p => if p.1 = key then some p.2 else acc) none with
      | some v => rfl
      | none =>
          by_cases hk : key = p.1
          · subst hk
            simp [optOr]
          · have hk' : ¬ p.1 = key := fun h => hk h.symm
            simp [optOr, hk, hk']

theorem refreshKeys_eq_foldl (ks : List JWKSKey)
    (cache : List (String × RSAPublicKey)) :
    refreshKeys ks cache =
      (parsedPairs ks).foldl (fun acc p => mapInsert acc p.1 p.2) cache := by
  induction ks generalizing cache with
  | nil => rfl
  | cons k ks ih =>
      rw [refreshKeys_cons, parsedPairs_cons]
      by_cases hskip : k.kty ≠ "RSA" ∨ k.use ≠ "sig"
      · simp only [if_pos hskip, List.nil_append]
        exact ih cache
      · cases hp : parseRSAPublicKey k.n k.e with
        | none => simp only [if_neg hskip, hp, List.nil_append]; exact ih cache
        | some pk =>
            simp only [if_neg hskip, hp, List.cons_append, List.nil_append,
              List.foldl_cons]
            exact ih (mapInsert cache k.kid pk)

/-- C4 counterexample: a key id cached before a refresh but absent from the
freshly fetched set still resolves afterwards — the cache is not replaced
wholesale.  Concretely: the cache holds `old-kid`, the fetched set holds
only the RSA signing key `new-kid` (modulus and exponent both the
base64url-encoded byte `0x01`), and after the refresh `old-kid` still
resolves to its old key. -/
theorem jwks_refresh_not_wholesale :
    ("old-kid" ∉
        ([{ kid := "new-kid", kty := "RSA", use := "sig", n := "AQ", e := "AQ" }] :
          List JWKSKey).map JWKSKey.kid) ∧
    jwksGetKey
        (refreshKeys
          [{ kid := "new-kid", kty := "RSA", use := "sig", n := "AQ", e := "AQ" }]
          (mapInsert [] "old-kid" { n := 5, e := 3 }))
        "old-kid" = Except.ok { n := 5, e := 3 } := by
  constructor
  · decide
  · rfl

/-- C4 (amended): a successful refresh merges the parsed RSA signing keys
of the fetched set into the cache, overwriting per key id (the last parsed
entry for an id wins) and leaving every other cached entry intact; in
particular a previously cached id absent from the fetched set still
resolves to its old key. -/
theorem jwks_refresh_merges :
    (∀ (ks : List JWKSKey) (cache : List (String × RSAPublicKey)) (kid : String),
        mapLookup (refreshKeys ks cache) kid =
          optOr (lastParsed ks kid) (mapLookup cache kid)) ∧
    (∀ (ks : List JWKSKey) (cache : List (String × RSAPublicKey))
        (kid : String) (pk : RSAPublicKey),
        mapLookup cache kid = some pk → lastParsed ks kid = none →
        jwksGetKey (refreshKeys ks cache) kid = Except.ok pk) := by
  have main : ∀ (ks : List JWKSKey) (cache : List (String × RSAPublicKey))
      (kid : String),
      mapLookup (refreshKeys ks cache) kid =
        optOr (lastParsed ks kid) (mapLookup cache kid) := by
    intro ks cache kid
    rw [refreshKeys_eq_foldl, mapLookup_foldl_mapInsert]
    rfl
  refine ⟨main, ?_⟩
  intro ks cache kid pk hcached hnone
  unfold jwksGetKey
  rw [main, hnone, hcached]
  rfl

/-- Witness for C4's amended statement: with two cached keys and a fetched
set touching neither, both cached keys survive the refresh. -/
theorem jwks_refresh_merges_witness :
    jwksGetKey
        (refreshKeys
          [{ kid := "k3", kty := "RSA", use := "sig", n := "AQ", e := "AQ" }]
          (mapInsert (mapInsert [] "k1" { n := 7, e := 3 }) "k2" { n := 9, e := 5 }))
        "k2" = Except.ok { n := 9, e := 5 } :=
  jwks_refresh_merges.2
    [{ kid := "k3", kty := "RSA", use := "sig", n := "AQ", e := "AQ" }]
    (mapInsert (mapInsert [] "k1" { n := 7, e := 3 }) "k2" { n := 9, e := 5 })
    "k2" { n := 9, e := 5 } (by decide) (by decide)

/-! ## Rate limiter lemmas -/

/-- A fresh limiter at instant `t` with the whole fill interval elapsed
admits exactly when the burst admits one token, leaving a full-minus-one
bucket stamped at `t`. -/
theorem newLimiter_allowAt (rps : ℚ) (b : Int) (t : ℚ) (h0 : rps ≠ 0)
    (ht : 0 ≤ t) (hfill : (b : ℚ) ≤ t * rps) :
    (newLimiter rps b).allowAt t =
      if 1 ≤ b then
        (true, { limit := rps, burst := b, tokens := (b : ℚ) - 1, lastUpdate := t })
      else (false, newLimiter rps b) := by
  have hadv : (newLimiter rps b).advance t = (b : ℚ) := by
    simp only [Limiter.advance, newLimiter]
    split_ifs with h1 h2 h2 <;> first | rfl | linarith
  have hb1 : (1 ≤ b ∧ 1 ≤ (b : ℚ)) ↔ 1 ≤ b := by
    constructor
    · exact fun h => h.1
    · intro h
      exact ⟨h, by exact_mod_cast h⟩
  unfold Limiter.allowAt
  rw [if_neg (by simpa [newLimiter] using h0)]
  simp only [newLimiter] at hadv ⊢
  rw [hadv]
  by_cases hb : 1 ≤ b
  · rw [if_pos (hb1.mpr hb), if_pos hb]
  · rw [if_neg (fun h => hb (hb1.mp h)), if_neg hb]

/-- At a fixed instant, a bucket holding `b - j` tokens admits exactly when
`j < b`, consuming one token on admission and staying put on rejection. -/
theorem allowAt_limiterAt (rps b : Int) (t : ℚ) (j : Nat) (h0 : 0 < rps) :
    (limiterAt rps b t j).allowAt t =
      if (j : Int) < b then (true, limiterAt rps b t (j + 1))
      else (false, limiterAt rps b t j) := by
  have hlim : ¬ ((rps : ℚ) = 0) := by
    exact_mod_cast ne_of_gt h0
  have hj0 : (0 : ℚ) ≤ (j : ℚ) := Nat.cast_nonneg j
  have hadv : (limiterAt rps b t j).advance t = (b : ℚ) - (j : ℚ) := by
    unfold Limiter.advance limiterAt
    rw [if_neg (lt_irrefl t)]
    simp only [sub_self, zero_mul, add_zero]
    rw [if_neg (by linarith)]
  have hcond : (1 ≤ b ∧ 1 ≤ (b : ℚ) - (j : ℚ)) ↔ (j : Int) < b := by
    constructor
    · rintro ⟨-, h⟩
      have h'' : ((j : Int) + 1 : Int) ≤ b := by
        have h2 : (((j : Int) + 1 : Int) : ℚ) ≤ ((b : Int) : ℚ) := by
          push_cast
          linarith
        exact_mod_cast h2
      omega
    · intro h
      have h1 : ((j : Int) + 1 : Int) ≤ b := h
      have h2 : (((j : Int) + 1 : Int) : ℚ) ≤ ((b : Int) : ℚ) := by exact_mod_cast h1
      have h3 : (1 : Int) ≤ b := by omega
      refine ⟨h3, ?_⟩
      push_cast at h2
      linarith
  unfold Limiter.allowAt
  rw [if_neg (by simpa [limiterAt] using hlim)]
  simp only [limiterAt] at hadv ⊢
  rw [hadv]
  by_cases hb : (j : Int) < b
  · rw [if_pos (hcond.mpr hb), if_pos hb]
    have hc : (b : ℚ) - (j : ℚ) - 1 = (b : ℚ) - ((j + 1 : ℕ) : ℚ) := by
      push_cast
      ring
    rw [hc]
  · rw [if_neg (fun h => hb (hcond.mp h)), if_neg hb]

/-- Evaluates `rlStep` when the client already has a limiter. -/
theorem rlStep_eq_existing (next : Request → Response) (rl : RateLimiter)
    (r : Request) (t : ℚ) (l : Limiter)
    (h : mapLookup rl.limiters (getClientIP r) = some l) :
    rlStep next rl r t =
      (if (l.allowAt t).1 then next r else rateLimitExceededResponse,
       { limiters := mapInsert rl.limiters (getClientIP r) (l.allowAt t).2
         rps := rl.rps
         burst := rl.burst }) := by
  simp only [rlStep, getLimiter, h]
  by_cases hok : (l.allowAt t).1 = true <;> simp [hok]

/-- Evaluates `rlStep` when the client is unseen: a limiter is created lazily and its
post-check state replaces the freshly inserted one. -/
theorem rlStep_eq_missing (next : Request → Response) (rl : RateLimiter)
    (r : Request) (t : ℚ)
    (h : mapLookup rl.limiters (getClientIP r) = none) :
    rlStep next rl r t =
      (if ((newLimiter (rl.rps : ℚ) rl.burst).allowAt t).1 then next r
        else rateLimitExceededResponse,
       { limiters :=
           mapInsert rl.limiters (getClientIP r)
             ((newLimiter (rl.rps : ℚ) rl.burst).allowAt t).2
         rps := rl.rps
         burst := rl.burst }) := by
  simp only [rlStep, getLimiter, h, mapInsert_mapInsert_same]
  by_cases hok : ((newLimiter (rl.rps : ℚ) rl.burst).allowAt t).1 = true <;>
    simp [hok]

/-- A step never changes the configured rate or burst. -/
theorem rlStep_config (next : Request → Response) (rl : RateLimiter)
    (r : Request) (t : ℚ) :
    (rlStep next rl r t).2.rps = rl.rps ∧ (rlStep next rl r t).2.burst = rl.burst := by
  cases h : mapLookup rl.limiters (getClientIP r) with
  | some l =>
      rw [rlStep_eq_existing next rl r t l h]
      by_cases hok : (l.allowAt t).1 = true <;> simp [hok]
  | none =>
      rw [rlStep_eq_missing next rl r t h]
      by_cases hok : ((newLimiter (rl.rps : ℚ) rl.burst).allowAt t).1 = true <;>
        simp [hok]

/-- A step touches no map entry other than the one for its own client
key. -/
theorem rlStep_frame (next : Request → Response) (rl : RateLimiter)
    (r : Request) (t : ℚ) (k : String) (hk : k ≠ getClientIP r) :
    mapLookup (rlStep next rl r t).2.limiters k = mapLookup rl.limiters k := by
  cases h : mapLookup rl.limiters (getClientIP r) with
  | some l =>
      rw [rlStep_eq_existing next rl r t l h]
      by_cases hok : (l.allowAt t).1 = true <;>
        simp [hok, mapLookup_mapInsert, hk]
  | none =>
      rw [rlStep_eq_missing next rl r t h]
      by_cases hok : ((newLimiter (rl.rps : ℚ) rl.burst).allowAt t).1 = true <;>
        simp [hok, mapLookup_mapInsert, hk]

/-- The response of a step depends only on the configuration and the map
entry for the request's own client key. -/
theorem rlStep_resp_congr (next : Request → Response) (rl1 rl2 : RateLimiter)
    (r : Request) (t : ℚ)
    (hl : mapLookup rl1.limiters (getClientIP r) = mapLookup rl2.limiters (getClientIP r))
    (hr : rl1.rps = rl2.rps) (hb : rl1.burst = rl2.burst) :
    (rlStep next rl1 r t).1 = (rlStep next rl2 r t).1 := by
  cases h : mapLookup rl2.limiters (getClientIP r) with
  | some l =>
      rw [rlStep_eq_existing next rl1 r t l (hl.trans h),
        rlStep_eq_existing next rl2 r t l h]
  | none =>
      rw [rlStep_eq_missing next rl1 r t (hl.trans h),
        rlStep_eq_missing next rl2 r t h, hr, hb]

/-- Processing any sequence of requests from other client keys leaves a
key's map entry and the configuration untouched. -/
theorem rlProcessSeq_frame (next : Request → Response)
    (seq : List (Request × ℚ)) :
    ∀ (rl : RateLimiter) (k : String), (∀ p ∈ seq, k ≠ getClientIP p.1) →
      mapLookup (rlProcessSeq next rl seq).limiters k = mapLookup rl.limiters k ∧
      (rlProcessSeq next rl seq).rps = rl.rps ∧
      (rlProcessSeq next rl seq).burst = rl.burst := by
  induction seq with
  | nil => intro rl k _; exact ⟨rfl, rfl, rfl⟩
  | cons p rest ih =>
      intro rl k hall
      obtain ⟨r, t⟩ := p
      have hk : k ≠ getClientIP r := hall (r, t) (List.mem_cons_self _ _)
      have hrest : ∀ q ∈ rest, k ≠ getClientIP q.1 :=
        fun q hq => hall q (List.mem_cons_of_mem _ hq)
      have hstep := ih (rlStep next rl r t).2 k hrest
      refine ⟨?_, ?_, ?_⟩
      · exact hstep.1.trans (rlStep_frame next rl r t k hk)
      · exact hstep.2.1.trans (rlStep_config next rl r t).1
      · exact hstep.2.2.trans (rlStep_config next rl r t).2

/-- A step on a state whose map misses the client key, with the fill
interval elapsed: the request is admitted exactly when the burst admits one
token, and the key now maps to a bucket of `burst - 1` tokens stamped at
`t` (or to the untouched fresh limiter on rejection). -/
theorem rlStep_fresh (next : Request → Response) (r : Request) (t : ℚ)
    (rps b : Int) (m : List (String × Limiter))
    (h : mapLookup m (getClientIP r) = none)
    (h0 : 0 < rps) (ht : 0 ≤ t) (hfill : (b : ℚ) ≤ t * (rps : ℚ)) :
    rlStep next { limiters := m, rps := rps, burst := b } r t =
      (if 1 ≤ b then next r else rateLimitExceededResponse,
       { limiters :=
           mapInsert m (getClientIP r)
             (if 1 ≤ b then limiterAt rps b t 1 else newLimiter (rps : ℚ) b)
         rps := rps
         burst := b }) := by
  have hrq : ((rps : ℚ)) ≠ 0 := by exact_mod_cast ne_of_gt h0
  rw [rlStep_eq_missing next { limiters := m, rps := rps, burst := b } r t h]
  show (if ((newLimiter (rps : ℚ) b).allowAt t).1 then next r
          else rateLimitExceededResponse,
        ({ limiters :=
             mapInsert m (getClientIP r) ((newLimiter (rps : ℚ) b).allowAt t).2
           rps := rps
           burst := b } : RateLimiter)) = _
  rw [newLimiter_allowAt (rps : ℚ) b t hrq ht hfill]
  by_cases hb1 : 1 ≤ b
  · simp only [if_pos hb1]
    have hL : ({ limit := (rps : ℚ), burst := b, tokens := (b : ℚ) - 1
                 lastUpdate := t } : Limiter) = limiterAt rps b t 1 := by
      simp [limiterAt]
    rw [hL]
    simp
  · simp only [if_neg hb1]
    simp

/-- Draining a single client's bucket at a fixed instant: starting from a
bucket filled at `t` that has already served `j` requests, the `i`-th of the
next `n` requests is admitted exactly when `j + i` is still below the
burst. -/
theorem rlRun_loop (next : Request → Response) (r : Request) (t : ℚ)
    (rps b : Int) (h0 : 0 < rps) :
    ∀ (n j : Nat),
      (rlRun next
          { limiters := [(getClientIP r, limiterAt rps b t j)]
            rps := rps
            burst := b } r t n).1 =
        (List.range n).map
          (fun (i : ℕ) => if (j : Int) + (i : Int) < b then next r
            else rateLimitExceededResponse) := by
  intro n
  induction n with
  | zero => intro j; simp [rlRun]
  | succ n ih =>
      intro j
      have hlook : mapLookup
          ({ limiters := [(getClientIP r, limiterAt rps b t j)]
             rps := rps
             burst := b } : RateLimiter).limiters (getClientIP r) =
          some (limiterAt rps b t j) := by
        simp [mapLookup]
      have hstep := rlStep_eq_existing next _ r t (limiterAt rps b t j) hlook
      rw [allowAt_limiterAt rps b t j h0] at hstep
      by_cases hb : (j : Int) < b
      · simp only [if_pos hb] at hstep
        have hins : mapInsert [(getClientIP r, limiterAt rps b t j)]
            (getClientIP r) (limiterAt rps b t (j + 1)) =
            [(getClientIP r, limiterAt rps b t (j + 1))] := by
          simp [mapInsert]
        simp only [rlRun, hstep, hins, ih (j + 1)]
        rw [List.range_succ_eq_map, List.map_cons, List.map_map]
        congr 1
        · simp [hb]
        · apply List.map_congr_left
          intro i _
          simp only [Function.comp, Nat.succ_eq_add_one]
          have hiff : ((j + 1 : ℕ) : Int) + (i : Int) < b ↔
              (j : Int) + ((i + 1 : ℕ) : Int) < b := by
            push_cast
            omega
          exact if_congr hiff rfl rfl
      · simp only [if_neg hb] at hstep
        have hins : mapInsert [(getClientIP r, limiterAt rps b t j)]
            (getClientIP r) (limiterAt rps b t j) =
            [(getClientIP r, limiterAt rps b t j)] := by
          simp [mapInsert]
        simp only [rlRun, hstep, hins, ih j]
        rw [List.range_succ_eq_map, List.map_cons, List.map_map]
        congr 1
        · simp [hb]
        · apply List.map_congr_left
          intro i _
          simp only [Function.comp, Nat.succ_eq_add_one]
          have h1 : ¬ ((j : Int) + (i : Int) < b) := by
            push_cast at hb ⊢
            omega
          have h2 : ¬ ((j : Int) + ((i + 1 : ℕ) : Int) < b) := by
            push_cast at hb ⊢
            omega
          rw [if_neg h1, if_neg h2]

/-- On any state whose map misses the request's client key (with positive
rate, the fill interval elapsed, and an admitting burst), the step forwards
the request. -/
theorem rlStep_fresh_state (next : Request → Response) (r : Request) (t : ℚ)
    (st : RateLimiter)
    (h : mapLookup st.limiters (getClientIP r) = none)
    (h0 : 0 < st.rps) (ht : 0 ≤ t)
    (hfill : (st.burst : ℚ) ≤ t * (st.rps : ℚ)) (hb : 1 ≤ st.burst) :
    (rlStep next st r t).1 = next r := by
  have hstep := rlStep_fresh next r t st.rps st.burst st.limiters h h0 ht hfill
  have heta : rlStep next st r t =
      rlStep next { limiters := st.limiters, rps := st.rps, burst := st.burst }
        r t := rfl
  rw [heta, hstep]
  simp [hb]

/-! ## C1: burst admission then 429 -/

/-- C1: from a fresh rate limiter whose bucket fills to the configured
burst `b` at instant `t` (the process start is the time origin, so the whole
fill interval has elapsed by `t`), a back-to-back run of `b + 1` requests
under one client key forwards exactly the first `b` to the downstream
handler, and the `(b+1)`-st gets the constant 429 rejection response, which
is produced without consulting `next` — the admission check is the pure,
non-waiting `Allow`. -/
theorem rateLimiter_burst_admission :
    ∀ (next : Request → Response) (rps b : Int) (t : ℚ) (r : Request),
      0 < rps → 0 ≤ b → (b : ℚ) ≤ t * (rps : ℚ) →
      (rlRun next (NewRateLimiter { requestsPerSecond := rps, burst := b }) r t
          (b.toNat + 1)).1 =
        (List.range (b.toNat + 1)).map
          (fun (i : ℕ) =>
            if (i : Int) < b then next r else rateLimitExceededResponse) ∧
      rateLimitExceededResponse.status = 429 := by
  intro next rps b t r h0 hb0 hfill
  refine ⟨?_, rfl⟩
  have ht : (0 : ℚ) ≤ t := by
    by_contra hneg
    push_neg at hneg
    have hmul : t * (rps : ℚ) < 0 :=
      mul_neg_of_neg_of_pos hneg (by exact_mod_cast h0)
    have hb0' : (0 : ℚ) ≤ (b : ℚ) := by exact_mod_cast hb0
    linarith
  simp only [NewRateLimiter]
  have hstep := rlStep_fresh next r t rps b [] rfl h0 ht hfill
  by_cases hb1 : 1 ≤ b
  · simp only [if_pos hb1] at hstep
    simp only [rlRun, hstep]
    have hins : mapInsert ([] : List (String × Limiter)) (getClientIP r)
        (limiterAt rps b t 1) = [(getClientIP r, limiterAt rps b t 1)] := rfl
    rw [hins, rlRun_loop next r t rps b h0 b.toNat 1]
    rw [List.range_succ_eq_map, List.map_cons, List.map_map]
    congr 1
    · have h0b : (0 : Int) < b := by omega
      simp [h0b]
    · apply List.map_congr_left
      intro i _
      simp only [Function.comp, Nat.succ_eq_add_one]
      have hiff : ((1 : ℕ) : Int) + (i : Int) < b ↔ ((i + 1 : ℕ) : Int) < b := by
        push_cast
        omega
      exact if_congr hiff rfl rfl
  · have hbz : b = 0 := by omega
    subst hbz
    simp only [if_neg hb1] at hstep
    simp only [Int.toNat_zero, rlRun, hstep]
    norm_num [List.range_succ]

/-- Witness for C1 at rps 10, burst 2, one second after the origin: of
three back-to-back requests the first two are forwarded and the third gets
the 429 response. -/
theorem rateLimiter_burst_admission_witness :
    (rlRun sampleNext
        (NewRateLimiter { requestsPerSecond := 10, burst := 2 }) sampleRequest
        1 3).1 =
      (List.range 3).map
        (fun (i : ℕ) => if (i : Int) < 2 then sampleNext sampleRequest
          else rateLimitExceededResponse) :=
  (rateLimiter_burst_admission sampleNext 10 2 1 sampleRequest (by norm_num)
      (by norm_num) (by norm_num)).1

/-! ## C2: per-key bucket independence -/

/-- C2: a key's admission decision is unaffected by any sequence of
requests under other client keys, and in the spec's concrete configuration
(burst 1, first key's bucket exhausted to any degree) the second key's
first request is always forwarded. -/
theorem rateLimiter_key_independence :
    (∀ (next : Request → Response) (rl : RateLimiter)
        (seq : List (Request × ℚ)) (r2 : Request) (t2 : ℚ),
        (∀ p ∈ seq, getClientIP p.1 ≠ getClientIP r2) →
        (rlStep next (rlProcessSeq next rl seq) r2 t2).1 =
          (rlStep next rl r2 t2).1) ∧
    (∀ (next : Request → Response) (rps : Int) (seq : List (Request × ℚ))
        (r2 : Request) (t2 : ℚ),
        0 < rps → 0 ≤ t2 → 1 ≤ t2 * (rps : ℚ) →
        (∀ p ∈ seq, getClientIP p.1 ≠ getClientIP r2) →
        (rlStep next
            (rlProcessSeq next
              (NewRateLimiter { requestsPerSecond := rps, burst := 1 }) seq)
            r2 t2).1 = next r2) := by
  constructor
  · intro next rl seq r2 t2 hforeign
    have h := rlProcessSeq_frame next seq rl (getClientIP r2)
      (fun p hp => (hforeign p hp).symm)
    exact rlStep_resp_congr next _ rl r2 t2 h.1 h.2.1 h.2.2
  · intro next rps seq r2 t2 h0 ht2 hfill hforeign
    obtain ⟨hl, hr, hb⟩ := rlProcessSeq_frame next seq
      (NewRateLimiter { requestsPerSecond := rps, burst := 1 }) (getClientIP r2)
      (fun p hp => (hforeign p hp).symm)
    refine rlStep_fresh_state next r2 t2 _ (by rw [hl]; rfl) ?_ ht2 ?_ ?_
    · rw [hr]
      exact h0
    · rw [hr, hb]
      show ((1 : Int) : ℚ) ≤ t2 * ((rps : Int) : ℚ)
      push_cast
      linarith
    · rw [hb]
      exact le_refl 1

/-- Witness for C2: after five requests from one address with burst 1 (the
first admitted, the rest rejected), a request from a second address is
still forwarded. -/
theorem rateLimiter_key_independence_witness :
    (rlStep sampleNext
        (rlProcessSeq sampleNext
          (NewRateLimiter { requestsPerSecond := 5, burst := 1 })
          (List.replicate 5
            ({ method := "GET", origin := "", xff := "", xri := ""
               remoteAddr := "10.0.0.1:1" }, (1 : ℚ))))
        { method := "GET", origin := "", xff := "", xri := ""
          remoteAddr := "10.0.0.2:2" } 1).1 =
      sampleNext
        { method := "GET", origin := "", xff := "", xri := ""
          remoteAddr := "10.0.0.2:2" } :=
  rateLimiter_key_independence.2 sampleNext 5
    (List.replicate 5
      ({ method := "GET", origin := "", xff := "", xri := ""
         remoteAddr := "10.0.0.1:1" }, (1 : ℚ)))
    { method := "GET", origin := "", xff := "", xri := ""
      remoteAddr := "10.0.0.2:2" } 1 (by norm_num) (by norm_num) (by norm_num)
    (by
      intro p hp
      rw [List.eq_of_mem_replicate hp]
      decide)

/-! ## C9: the client key is the verbatim header string -/

/-- C9: the rate-limiter client key is the verbatim `X-Forwarded-For`
value when non-empty (even a comma-separated multi-address list), else the
`X-Real-IP` value, else `RemoteAddr`; requests under different derived
strings use independent buckets (a step under one key never changes the
decision under another) while equal derived strings share one bucket (with
burst 1, an admitted request under one key exhausts the bucket for an
equal-keyed request); concretely, two forwarded chains agreeing on the
first address but differing later give different keys. -/
theorem clientKey_verbatim :
    (∀ r : Request, r.xff ≠ "" → getClientIP r = r.xff) ∧
    (∀ r : Request, r.xff = "" → r.xri ≠ "" → getClientIP r = r.xri) ∧
    (∀ r : Request, r.xff = "" → r.xri = "" → getClientIP r = r.remoteAddr) ∧
    (∀ (next : Request → Response) (rl : RateLimiter) (r1 r2 : Request)
        (t1 t2 : ℚ), getClientIP r1 ≠ getClientIP r2 →
        (rlStep next (rlStep next rl r1 t1).2 r2 t2).1 =
          (rlStep next rl r2 t2).1) ∧
    (∀ (next : Request → Response) (rps : Int) (r1 r2 : Request) (t : ℚ),
        0 < rps → 0 ≤ t → 1 ≤ t * (rps : ℚ) →
        getClientIP r1 = getClientIP r2 →
        (rlStep next
            (rlStep next
              (NewRateLimiter { requestsPerSecond := rps, burst := 1 }) r1 t).2
            r2 t).1 = rateLimitExceededResponse) ∧
    (getClientIP xffRequestA = "203.0.113.7, 10.0.0.1" ∧
      getClientIP xffRequestB = "203.0.113.7, 10.0.0.2" ∧
      getClientIP xffRequestA ≠ getClientIP xffRequestB) := by
  refine ⟨?_, ?_, ?_, ?_, ?_, by decide, by decide, by decide⟩
  · intro r h
    simp [getClientIP, h]
  · intro r h1 h2
    simp [getClientIP, h1, h2]
  · intro r h1 h2
    simp [getClientIP, h1, h2]
  · intro next rl r1 r2 t1 t2 hne
    exact rlStep_resp_congr next _ rl r2 t2
      (rlStep_frame next rl r1 t1 (getClientIP r2) (Ne.symm hne))
      (rlStep_config next rl r1 t1).1 (rlStep_config next rl r1 t1).2
  · intro next rps r1 r2 t h0 ht hfill hkey
    have hfill' : ((1 : Int) : ℚ) ≤ t * (rps : ℚ) := by
      push_cast
      linarith
    have hstep1 := rlStep_fresh next r1 t rps 1 [] rfl h0 ht hfill'
    rw [if_pos (le_refl (1 : Int))] at hstep1
    simp only [if_pos (le_refl (1 : Int))] at hstep1
    simp only [NewRateLimiter]
    rw [hstep1]
    have hlook2 : mapLookup
        (({ limiters :=
              mapInsert [] (getClientIP r1) (limiterAt rps 1 t 1)
            rps := rps
            burst := 1 } : RateLimiter)).limiters (getClientIP r2) =
        some (limiterAt rps 1 t 1) := by
      rw [← hkey]
      simp [mapInsert, mapLookup]
    have hstep2 := rlStep_eq_existing next _ r2 t (limiterAt rps 1 t 1) hlook2
    rw [allowAt_limiterAt rps 1 t 1 h0] at hstep2
    rw [if_neg (by norm_num : ¬ (((1 : ℕ) : Int) < 1))] at hstep2
    rw [hstep2]
    simp

/-- Witness for C9: the comma-separated forwarded chain is the key
verbatim, and the two concrete chains above use independent buckets. -/
theorem clientKey_verbatim_witness :
    getClientIP xffRequestA = "203.0.113.7, 10.0.0.1" ∧
    (rlStep sampleNext (rlStep sampleNext rlSample xffRequestA 1).2
        xffRequestB 1).1 =
      (rlStep sampleNext rlSample xffRequestB 1).1 :=
  ⟨clientKey_verbatim.1 xffRequestA (by decide),
   clientKey_verbatim.2.2.2.1 sampleNext rlSample xffRequestA xffRequestB 1 1
     (by decide)⟩

end Boilerplate
